import Mathlib

/-!
Verification development for the `safeatomic` library
(`src/safeatomic/atomic.py`): a shallow embedding of the lock-file
protocol, the atomic write/read sessions, the move primitive and the
format wrappers, as pure functions over an explicit filesystem map.

The filesystem is a map from paths to files; a file carries its textual
content, an opaque metadata token (standing for the permission and
timestamp bits that `shutil.copystat` copies) and a creation time
(consulted by `os.path.getctime`).  External collaborators are passed in
as parameters: the process-liveness oracle (`psutil.pid_exists`), the
digest function backing `session_to_hash` (`hashlib.sha256 ... [:8]`),
the calling process id, the rendered UTC timestamp, and the clock.
-/

namespace SafeAtomic

abbrev FPath := String

/-- A file on disk: its textual content, an opaque metadata token
(the permission/timestamp bits copied by `shutil.copystat`) and its
creation time as read by `os.path.getctime`. -/
structure File where
  content : String
  fmeta : Nat
  ctime : Nat
deriving Repr, DecidableEq

/-- The filesystem: a map from paths to files. -/
abbrev FS := FPath → Option File

def FS.set (fs : FS) (p : FPath) (f : File) : FS :=
  fun q => if q = p then some f else fs q

def FS.del (fs : FS) (p : FPath) : FS :=
  fun q => if q = p then none else fs q

def FS.emptyFS : FS := fun _ => none

/-- Metadata token of a freshly created file. -/
def meta0 : Nat := 0

def LOCK_SUFFIX : String := ".lock"

def LOCK_SEPARATOR : String := "|"

def DEFAULT_RETRIES : Nat := 5

/-- `get_lock_path`: the lock path is the target path plus the fixed suffix. -/
def get_lock_path (path : FPath) : FPath := path ++ LOCK_SUFFIX

/-- `lock_render(pid, session_hash, timestamp)`:
`f"{pid}{LOCK_SEPARATOR}{session_hash or ''}{LOCK_SEPARATOR}{timestamp}"`. -/
def lock_render (pid : Nat) (session_hash : Option String) (timestamp : String) : String :=
  toString pid ++ LOCK_SEPARATOR ++ session_hash.getD "" ++ LOCK_SEPARATOR ++ timestamp

/-- The dictionary returned by `lock_parse`. -/
structure LockRecordFields where
  pid : Option Nat
  session_hash : Option String
  timestamp : Option String
deriving Repr, DecidableEq

/-- The separator as the single character it is; Python's
`content.split("|")` splits on this character. -/
def LOCK_SEP_CHAR : Char := '|'

/-- Python's `str.split(sep)` on a character list (structural recursion,
so proofs and `decide` can evaluate it): splitting the empty string
yields one empty field, every separator occurrence opens a new field. -/
def py_split_chars (sep : Char) : List Char → List (List Char)
  | [] => [[]]
  | c :: cs =>
    if c = sep then [] :: py_split_chars sep cs
    else
      match py_split_chars sep cs with
      | [] => [[c]]
      | h :: t => (c :: h) :: t

/-- Python's `str.split(sep)` for a one-character separator. -/
def py_split (s : String) (sep : Char) : List String :=
  (py_split_chars sep s.data).map String.mk

/-- Python's `str.strip()`: drop leading and trailing whitespace. -/
def py_strip (s : String) : String :=
  String.mk (((s.data.dropWhile Char.isWhitespace).reverse.dropWhile
    Char.isWhitespace).reverse)

/-- Python's `str.isdigit` for ASCII content: nonempty and all digits. -/
def str_isdigit (s : String) : Bool := !s.data.isEmpty && s.data.all Char.isDigit

/-- Python's `int(...)` on a string of ASCII digits. -/
def py_int_of_digits (l : List Char) : Nat :=
  l.foldl (fun acc c => acc * 10 + (c.toNat - Char.toNat '0')) 0

/-- `lock_parse(content)`: split the stripped content on the separator;
`parts[0]` parses to a pid only when it is all digits, `parts[1] or None`
is the session hash, `parts[2]` (when present) the timestamp.  Accessing
`parts[1]` raises `IndexError` when the split produced fewer than two
fields; that exception is the `.error` case. -/
def lock_parse (content : String) : Except Unit LockRecordFields :=
  match py_split (py_strip content) LOCK_SEP_CHAR with
  | [] => .error ()
  | [_] => .error ()
  | p0 :: p1 :: rest =>
    .ok ⟨if str_isdigit p0 then some (py_int_of_digits p0.data) else none,
         if p1 = "" then none else some p1,
         rest.head?⟩

/-- `session_to_hash(session)`: the truncated digest of the label, or
`None` when the label is `None` or empty (Python truthiness). -/
def session_to_hash (hash8 : String → String) (session : Option String) : Option String :=
  match session with
  | none => none
  | some s => if s = "" then none else some (hash8 s)

/-- `is_locked(path)`: the lock file exists. -/
def is_locked (fs : FS) (path : FPath) : Bool :=
  (fs (get_lock_path path)).isSome

/-- `get_lock_age(path)`: `time.time() - getctime(lock)` when the lock
file exists, else `0.0`. -/
def get_lock_age (fs : FS) (now : Nat) (path : FPath) : Int :=
  match fs (get_lock_path path) with
  | some f => (now : Int) - (f.ctime : Int)
  | none => 0

/-- `is_stale_lock(path, max_age_s)`: age strictly exceeds the threshold,
and only when a lock exists. -/
def is_stale_lock (fs : FS) (now : Nat) (path : FPath) (max_age_s : Int) : Bool :=
  if is_locked fs path then decide (get_lock_age fs now path > max_age_s) else false

/-- `force_release_lock(path)`: delete the lock file if present. -/
def force_release_lock (fs : FS) (path : FPath) : FS :=
  if (fs (get_lock_path path)).isSome then FS.del fs (get_lock_path path) else fs

/-- `release_stale_lock(path, max_age_s)`: delete the lock only when stale. -/
def release_stale_lock (fs : FS) (now : Nat) (path : FPath) (max_age_s : Int) : FS :=
  if is_stale_lock fs now path max_age_s then force_release_lock fs path else fs

/-- `release_lock(path)`: unconditional release. -/
def release_lock (fs : FS) (path : FPath) : FS := force_release_lock fs path

/-- The `LockInfo` dataclass of the inspection result. -/
structure LockInfo where
  path : FPath
  exists_ : Bool
  pid : Option Nat
  alive : Bool
  session_hash : Option String
  timestamp : Option String
  corrupt : Bool
deriving Repr, DecidableEq

/-- `inspect_lock(path)`: a missing lock file yields `exists=False`; a
readable one is parsed with `lock_parse`, where any exception (the
`IndexError` from a content with fewer than two fields) yields
`corrupt=True` with no other field trusted.  `alive` is
`is_process_alive(pid) if pid else False`, so a missing or zero pid is
reported dead without consulting the oracle. -/
def inspect_lock (aliveOracle : Nat → Bool) (fs : FS) (path : FPath) : LockInfo :=
  let lp := get_lock_path path
  match fs lp with
  | none => ⟨lp, false, none, false, none, none, false⟩
  | some f =>
    match lock_parse f.content with
    | .error _ => ⟨lp, true, none, false, none, none, true⟩
    | .ok d =>
      ⟨lp, true, d.pid,
       (match d.pid with
        | some p => if p = 0 then false else aliveOracle p
        | none => false),
       d.session_hash, d.timestamp, false⟩

/-- The result of `try_acquire_lock`: the returned boolean, the resulting
filesystem, and how many per-attempt sleeps of `delay` were consumed. -/
structure AcqResult where
  ok : Bool
  fs : FS
  sleeps : Nat

/-- The retry loop of `try_acquire_lock`.  Each iteration: if no lock
file exists, create it exclusively, write the rendered record and return
success at once; if it exists, inspect it, and when the owner is not
alive or `force` is set, delete it and retry immediately; otherwise
sleep `delay` and retry.  After the attempts are exhausted, return
failure. -/
def try_acquire_lock_loop (aliveOracle : Nat → Bool) (path : FPath) (force : Bool)
    (pid : Nat) (session_hash : Option String) (timestamp : String) (now : Nat) :
    FS → Nat → AcqResult
  | fs, 0 => ⟨false, fs, 0⟩
  | fs, n + 1 =>
    match fs (get_lock_path path) with
    | none =>
      ⟨true,
       FS.set fs (get_lock_path path) ⟨lock_render pid session_hash timestamp, meta0, now⟩,
       0⟩
    | some _ =>
      if !(inspect_lock aliveOracle fs path).alive || force then
        try_acquire_lock_loop aliveOracle path force pid session_hash timestamp now
          (force_release_lock fs path) n
      else
        let r := try_acquire_lock_loop aliveOracle path force pid session_hash timestamp now fs n
        ⟨r.ok, r.fs, r.sleeps + 1⟩

/-- `try_acquire_lock(path, retries, delay, session, force)`: the session
hash and the UTC timestamp are computed once, then the retry loop runs. -/
def try_acquire_lock (aliveOracle : Nat → Bool) (hash8 : String → String)
    (pid : Nat) (timestamp : String) (now : Nat)
    (fs : FS) (path : FPath) (retries : Nat) (session : Option String) (force : Bool) :
    AcqResult :=
  try_acquire_lock_loop aliveOracle path force pid (session_to_hash hash8 session)
    timestamp now fs retries

/-- The `AtomicWriter` constructor arguments that matter to the model
(`delay` only scales wall-clock sleeps; `encoding` is the identity on our
textual contents; `tmpfile = get_tmp_path(path)` is a fresh random name,
passed in explicitly since its uniqueness comes from a random token). -/
structure AtomicWriter where
  path : FPath
  tmpfile : FPath
  retries : Nat
  simulate : Bool
  session : Option String
  force : Bool
deriving Repr, DecidableEq

/-- How an `AtomicWriter` scope terminates: the block completed and the
`with` statement returned normally; the block raised and the exception
propagated after `__exit__` ran; or `__enter__` raised the
lock-unavailable `RuntimeError` (so `__exit__` never ran). -/
inductive SessionOutcome where
  | completed
  | blockError
  | lockUnavailable
deriving Repr, DecidableEq

structure SessionResult where
  outcome : SessionOutcome
  fs : FS

/-- One whole `with AtomicWriter(...) as f:` session.  `blockData` is the
content the caller's block wrote into the stream (possibly partial) and
`blockRaises` tells whether the block raised before completing.

`__enter__`: in simulate mode the stream is `os.devnull` and nothing else
happens — in particular no lock is acquired.  Otherwise the lock is
acquired via `try_acquire_lock` (raising on failure) and the temp file is
opened for writing.

`__exit__` (which Python runs for normal and exceptional block exits
alike): close the stream; when not simulating, `copystat` the existing
target's metadata onto the temp file (best effort), `os.replace` the temp
file onto the target, and in the `finally` clause release the lock and
remove the temp file if it still exists. -/
def AtomicWriter.run (w : AtomicWriter) (aliveOracle : Nat → Bool) (hash8 : String → String)
    (pid : Nat) (timestamp : String) (now : Nat)
    (blockData : String) (blockRaises : Bool) (fs : FS) : SessionResult :=
  if w.simulate then
    ⟨if blockRaises then .blockError else .completed, fs⟩
  else
    let acq := try_acquire_lock aliveOracle hash8 pid timestamp now fs w.path w.retries
      w.session w.force
    if acq.ok then
      let fs1 := FS.set acq.fs w.tmpfile ⟨"", meta0, now⟩
      let fs2 := FS.set fs1 w.tmpfile ⟨blockData, meta0, now⟩
      let fs3 :=
        match fs2 w.path with
        | some t => FS.set fs2 w.tmpfile ⟨blockData, t.fmeta, now⟩
        | none => fs2
      let fs4 :=
        match fs3 w.tmpfile with
        | some tf => FS.set (FS.del fs3 w.tmpfile) w.path tf
        | none => fs3
      let fs5 := force_release_lock fs4 w.path
      let fs6 := if (fs5 w.tmpfile).isSome then FS.del fs5 w.tmpfile else fs5
      ⟨if blockRaises then .blockError else .completed, fs6⟩
    else
      ⟨.lockUnavailable, acq.fs⟩

/-- `write_atomic(path, data, ...)`: a writer session whose block writes
`data` and completes without raising. -/
def write_atomic (aliveOracle : Nat → Bool) (hash8 : String → String)
    (pid : Nat) (timestamp : String) (now : Nat)
    (fs : FS) (path tmpfile : FPath) (data : String)
    (retries : Nat) (simulate : Bool) (session : Option String) (force : Bool) :
    SessionResult :=
  AtomicWriter.run ⟨path, tmpfile, retries, simulate, session, force⟩
    aliveOracle hash8 pid timestamp now data false fs

/-- Python's universal-newlines translation, applied when reading a file
opened in text mode with the default `newline=None` (as `open_atomic`
does for mode `"r"`): every `'\r\n'` pair and every lone `'\r'` becomes
`'\n'`.  On the write side `newline=None` translates `'\n'` to
`os.linesep`, which on Linux is `'\n'` — the identity — so only the read
side is modelled. -/
def py_universal_newlines : List Char → List Char
  | [] => []
  | [c] => if c = '\r' then ['\n'] else [c]
  | c :: d :: rest =>
    if c = '\r' then
      if d = '\n' then '\n' :: py_universal_newlines rest
      else '\n' :: py_universal_newlines (d :: rest)
    else c :: py_universal_newlines (d :: rest)

/-- What `f.read()` returns for a file opened with
`open(path, "r", encoding=...)`: the stored bytes decoded and passed
through the universal-newlines translation. -/
def py_read_text (s : String) : String :=
  String.mk (py_universal_newlines s.data)

/-- The retry loop of `AtomicReader.__enter__` followed by the caller's
`f.read()`: on each attempt, when `require_lock` is unset or the path is
not locked, try to open the target (a missing file is retried after a
sleep); otherwise sleep and retry.  A successful open is a text-mode
`open(path, "r", ...)` with the default `newline=None`, so the content
comes back through the universal-newlines translation.  Exhausting the
attempts raises the read-failed-or-locked `RuntimeError`, the `.error`
case. -/
def AtomicReader_run (fs : FS) (path : FPath) (require_lock : Bool) : Nat → Except Unit String
  | 0 => .error ()
  | n + 1 =>
    if !require_lock || !is_locked fs path then
      match fs path with
      | some f => .ok (py_read_text f.content)
      | none => AtomicReader_run fs path require_lock n
    else AtomicReader_run fs path require_lock n

/-- `read_atomic(path, ...)`: open through an `AtomicReader` and read the
whole content. -/
def read_atomic (fs : FS) (path : FPath) (retries : Nat) (require_lock : Bool) :
    Except Unit String :=
  AtomicReader_run fs path require_lock retries

/-- Result of the move primitive: success with the new filesystem, the
`FileExistsError` of a present destination without force, or the
`FileNotFoundError` of `os.replace` on a missing source.  The failure
cases carry the (unchanged) filesystem. -/
inductive MoveResult where
  | ok (fs : FS)
  | destExists (fs : FS)
  | srcMissing (fs : FS)

def MoveResult.isOk : MoveResult → Bool
  | .ok _ => true
  | _ => false

/-- The file at `q` in the filesystem a move left behind. -/
def MoveResult.fileAt : MoveResult → FPath → Option File
  | .ok fs, q => fs q
  | .destExists fs, q => fs q
  | .srcMissing fs, q => fs q

/-- `_move_atomic(src, dst, force)` (and its `move_atomic` wrapper): when
`dst` exists, fail unless `force`, else best-effort `copystat` `dst`'s
metadata onto `src`; then `os.replace(src, dst)`. -/
def move_atomic (fs : FS) (src dst : FPath) (force : Bool) : MoveResult :=
  match fs dst with
  | some dstF =>
    if !force then .destExists fs
    else
      match fs src with
      | some srcF =>
        let fs1 := FS.set fs src ⟨srcF.content, dstF.fmeta, srcF.ctime⟩
        .ok (FS.set (FS.del fs1 src) dst ⟨srcF.content, dstF.fmeta, srcF.ctime⟩)
      | none => .srcMissing fs
  | none =>
    match fs src with
    | some srcF => .ok (FS.set (FS.del fs src) dst srcF)
    | none => .srcMissing fs

/-- `atomic_pickle_write(path, data)`: open the temp path directly, dump
the pickled bytes (`enc`, the serialized form of the value), best-effort
`copystat` the existing target's metadata onto the temp file, and
`os.replace` it onto the target.  No lock is consulted at any point. -/
def atomic_pickle_write (fs : FS) (path tmpfile : FPath) (enc : String) (now : Nat) : FS :=
  let fs1 := FS.set fs tmpfile ⟨enc, meta0, now⟩
  let fs2 :=
    match fs1 path with
    | some t => FS.set fs1 tmpfile ⟨enc, t.fmeta, now⟩
    | none => fs1
  match fs2 tmpfile with
  | some tf => FS.set (FS.del fs2 tmpfile) path tf
  | none => fs2

/-- `atomic_pickle_read(path)`: open the target directly and unpickle;
no retries, no lock check. -/
def atomic_pickle_read (fs : FS) (path : FPath) : Except Unit String :=
  match fs path with
  | some f => .ok f.content
  | none => .error ()

/-- `atomic_json_dump(path, obj, ...)`: serialize with `json.dumps` and
delegate to `write_atomic` with its default retries/simulate/session/
force arguments. -/
def atomic_json_dump {α : Type} (dumps : α → String)
    (aliveOracle : Nat → Bool) (hash8 : String → String)
    (pid : Nat) (timestamp : String) (now : Nat)
    (fs : FS) (path tmpfile : FPath) (obj : α) : SessionResult :=
  write_atomic aliveOracle hash8 pid timestamp now fs path tmpfile (dumps obj)
    DEFAULT_RETRIES false none false

/-- `atomic_yaml_dump(path, obj, ...)`: serialize with `yaml.safe_dump`
and delegate to `write_atomic` with its default arguments. -/
def atomic_yaml_dump {α : Type} (safe_dump : α → String)
    (aliveOracle : Nat → Bool) (hash8 : String → String)
    (pid : Nat) (timestamp : String) (now : Nat)
    (fs : FS) (path tmpfile : FPath) (obj : α) : SessionResult :=
  write_atomic aliveOracle hash8 pid timestamp now fs path tmpfile (safe_dump obj)
    DEFAULT_RETRIES false none false

/-- `atomic_json_load(path, ...)`: `read_atomic` with default arguments,
then `json.loads`. -/
def atomic_json_load {α : Type} (loads : String → α) (fs : FS) (path : FPath) :
    Except Unit α :=
  (read_atomic fs path DEFAULT_RETRIES false).map loads

/-! ## Basic lemmas about the filesystem map and the lock path -/

theorem FS.set_self (fs : FS) (p : FPath) (f : File) : FS.set fs p f p = some f := by
  simp [FS.set]

theorem FS.set_ne (fs : FS) (p : FPath) (f : File) (q : FPath) (h : q ≠ p) :
    FS.set fs p f q = fs q := by
  simp [FS.set, h]

theorem FS.del_self (fs : FS) (p : FPath) : FS.del fs p p = none := by
  simp [FS.del]

theorem FS.del_ne (fs : FS) (p : FPath) (q : FPath) (h : q ≠ p) : FS.del fs p q = fs q := by
  simp [FS.del, h]

theorem get_lock_path_ne (p : FPath) : get_lock_path p ≠ p := by
  intro h
  have h2 := congrArg String.length h
  rw [get_lock_path, String.length_append] at h2
  have h3 : LOCK_SUFFIX.length = 5 := by decide
  omega

theorem force_release_lock_lockfile (fs : FS) (path : FPath) :
    force_release_lock fs path (get_lock_path path) = none := by
  unfold force_release_lock
  split
  · exact FS.del_self fs (get_lock_path path)
  · rename_i h
    simpa using h

theorem force_release_lock_other (fs : FS) (path : FPath) (q : FPath)
    (h : q ≠ get_lock_path path) : force_release_lock fs path q = fs q := by
  unfold force_release_lock
  split
  · exact FS.del_ne fs (get_lock_path path) q h
  · rfl

/-! Unfolding equations for the acquire loop, one per iteration shape. -/

theorem try_acquire_lock_loop_succ_none (al : Nat → Bool) (path : FPath) (force : Bool)
    (pid : Nat) (sh : Option String) (ts : String) (now : Nat) (n : Nat) (fs : FS)
    (h : fs (get_lock_path path) = none) :
    try_acquire_lock_loop al path force pid sh ts now fs (n + 1)
      = ⟨true,
         FS.set fs (get_lock_path path) ⟨lock_render pid sh ts, meta0, now⟩,
         0⟩ := by
  rw [try_acquire_lock_loop, h]

theorem try_acquire_lock_loop_succ_reclaim (al : Nat → Bool) (path : FPath) (force : Bool)
    (pid : Nat) (sh : Option String) (ts : String) (now : Nat) (n : Nat) (fs : FS) (f : File)
    (h : fs (get_lock_path path) = some f)
    (hc : (!(inspect_lock al fs path).alive || force) = true) :
    try_acquire_lock_loop al path force pid sh ts now fs (n + 1)
      = try_acquire_lock_loop al path force pid sh ts now (force_release_lock fs path) n := by
  rw [try_acquire_lock_loop, h]
  rw [if_pos hc]

theorem try_acquire_lock_loop_succ_sleep (al : Nat → Bool) (path : FPath) (force : Bool)
    (pid : Nat) (sh : Option String) (ts : String) (now : Nat) (n : Nat) (fs : FS) (f : File)
    (h : fs (get_lock_path path) = some f)
    (hc : ¬ ((!(inspect_lock al fs path).alive || force) = true)) :
    try_acquire_lock_loop al path force pid sh ts now fs (n + 1)
      = ⟨(try_acquire_lock_loop al path force pid sh ts now fs n).ok,
         (try_acquire_lock_loop al path force pid sh ts now fs n).fs,
         (try_acquire_lock_loop al path force pid sh ts now fs n).sleeps + 1⟩ := by
  rw [try_acquire_lock_loop, h]
  rw [if_neg hc]

/-- The acquire loop touches no path other than the lock path. -/
theorem try_acquire_lock_loop_frame (al : Nat → Bool) (path : FPath) (force : Bool)
    (pid : Nat) (sh : Option String) (ts : String) (now : Nat) (q : FPath)
    (hq : q ≠ get_lock_path path) :
    ∀ (n : Nat) (fs : FS),
      (try_acquire_lock_loop al path force pid sh ts now fs n).fs q = fs q := by
  intro n
  induction n with
  | zero => intro fs; rfl
  | succ n ih =>
    intro fs
    cases h : fs (get_lock_path path) with
    | none =>
      rw [try_acquire_lock_loop_succ_none al path force pid sh ts now n fs h]
      exact FS.set_ne fs (get_lock_path path) _ q hq
    | some f =>
      by_cases hc : (!(inspect_lock al fs path).alive || force) = true
      · rw [try_acquire_lock_loop_succ_reclaim al path force pid sh ts now n fs f h hc,
          ih (force_release_lock fs path)]
        exact force_release_lock_other fs path q hq
      · rw [try_acquire_lock_loop_succ_sleep al path force pid sh ts now n fs f h hc]
        exact ih fs

/-- A failed acquire loop never leaves a lock record of its own: the lock
file is either the one that was already there or gone. -/
theorem try_acquire_lock_loop_fail (al : Nat → Bool) (path : FPath) (force : Bool)
    (pid : Nat) (sh : Option String) (ts : String) (now : Nat) :
    ∀ (n : Nat) (fs : FS),
      (try_acquire_lock_loop al path force pid sh ts now fs n).ok = false →
      ((try_acquire_lock_loop al path force pid sh ts now fs n).fs (get_lock_path path)
          = fs (get_lock_path path)
        ∨ (try_acquire_lock_loop al path force pid sh ts now fs n).fs (get_lock_path path)
          = none) := by
  intro n
  induction n with
  | zero => intro fs _; left; rfl
  | succ n ih =>
    intro fs hok
    cases h : fs (get_lock_path path) with
    | none =>
      rw [try_acquire_lock_loop_succ_none al path force pid sh ts now n fs h] at hok
      simp at hok
    | some f =>
      rw [← h]
      by_cases hc : (!(inspect_lock al fs path).alive || force) = true
      · rw [try_acquire_lock_loop_succ_reclaim al path force pid sh ts now n fs f h hc] at hok ⊢
        rcases ih (force_release_lock fs path) hok with h2 | h2
        · right; rw [h2, force_release_lock_lockfile]
        · right; exact h2
      · rw [try_acquire_lock_loop_succ_sleep al path force pid sh ts now n fs f h hc] at hok ⊢
        exact ih fs hok

/-- Against a live, non-forced owner the acquire loop only sleeps: it
returns failure, consumes one sleep per attempt and leaves the
filesystem untouched. -/
theorem try_acquire_lock_loop_live (al : Nat → Bool) (path : FPath)
    (pid : Nat) (sh : Option String) (ts : String) (now : Nat) :
    ∀ (n : Nat) (fs : FS),
      (fs (get_lock_path path)).isSome = true →
      (inspect_lock al fs path).alive = true →
      try_acquire_lock_loop al path false pid sh ts now fs n = ⟨false, fs, n⟩ := by
  intro n
  induction n with
  | zero => intro fs _ _; rfl
  | succ n ih =>
    intro fs hsome halive
    obtain ⟨f, hf⟩ := Option.isSome_iff_exists.mp hsome
    have hc : ¬ ((!(inspect_lock al fs path).alive || false) = true) := by
      simp [halive]
    rw [try_acquire_lock_loop_succ_sleep al path false pid sh ts now n fs f hf hc,
      ih fs hsome halive]

/-! ## Claim C4 -/

/-- Claim C4, as stated, is false: a lock content whose owner-id field is
not a parseable integer but which still contains the separator parses
without an exception, so inspection reports `corrupt = false` — and the
session fingerprint is taken from the malformed content rather than
reported absent.  Concretely, content `"abc|sess|2024"` yields
`corrupt = false` and `session_hash = some "sess"`. -/
theorem C4_counterexample :
    str_isdigit "abc" = false
    ∧ (inspect_lock (fun _ => true)
        (FS.set FS.emptyFS (get_lock_path "f") ⟨"abc|sess|2024", meta0, 0⟩) "f").corrupt
        = false
    ∧ (inspect_lock (fun _ => true)
        (FS.set FS.emptyFS (get_lock_path "f") ⟨"abc|sess|2024", meta0, 0⟩) "f").session_hash
        = some "sess" := by
  decide

/-- Claim C4 (amended): for a lock file whose owner-id field is not a
parseable integer, inspection never raises and reports the owner id
absent and the owner dead; but `corrupt = true` arises only when parsing
itself fails, i.e. when the content has no separator at all (fewer than
two fields).  When the malformed content still splits into at least two
fields, inspection reports `corrupt = false` and the session field is
taken from the content (empty mapped to absent). -/
theorem C4_amended_nondigit_owner (al : Nat → Bool) (fs : FS) (path : FPath) (f : File)
    (h : fs (get_lock_path path) = some f) :
    (∀ p0 p1 rest, py_split (py_strip f.content) LOCK_SEP_CHAR = p0 :: p1 :: rest →
      str_isdigit p0 = false →
      inspect_lock al fs path
        = ⟨get_lock_path path, true, none, false,
           if p1 = "" then none else some p1, rest.head?, false⟩)
    ∧ (∀ p0, py_split (py_strip f.content) LOCK_SEP_CHAR = [p0] →
      inspect_lock al fs path
        = ⟨get_lock_path path, true, none, false, none, none, true⟩) := by
  constructor
  · intro p0 p1 rest hsplit hdig
    simp only [inspect_lock]
    rw [h]
    simp only [lock_parse]
    rw [hsplit]
    simp [hdig]
  · intro p0 hsplit
    simp only [inspect_lock]
    rw [h]
    simp only [lock_parse]
    rw [hsplit]

/-- Witness for the amended C4: a lock with content `"abc|sess|2024"` is
inspected as not corrupt with the session taken from the content, and a
lock with content `"garbage"` (no separator) is inspected as corrupt. -/
theorem C4_amended_nondigit_owner_witness :
    (FS.set FS.emptyFS (get_lock_path "f") ⟨"abc|sess|2024", meta0, 0⟩) (get_lock_path "f")
        = some ⟨"abc|sess|2024", meta0, 0⟩
    ∧ py_split (py_strip "abc|sess|2024") LOCK_SEP_CHAR = ["abc", "sess", "2024"]
    ∧ str_isdigit "abc" = false
    ∧ inspect_lock (fun _ => true)
        (FS.set FS.emptyFS (get_lock_path "f") ⟨"abc|sess|2024", meta0, 0⟩) "f"
        = ⟨get_lock_path "f", true, none, false,
           if "sess" = "" then none else some "sess", ["2024"].head?, false⟩
    ∧ py_split (py_strip "garbage") LOCK_SEP_CHAR = ["garbage"]
    ∧ inspect_lock (fun _ => true)
        (FS.set FS.emptyFS (get_lock_path "g") ⟨"garbage", meta0, 0⟩) "g"
        = ⟨get_lock_path "g", true, none, false, none, none, true⟩ :=
  ⟨by decide, by decide, by decide,
   (C4_amended_nondigit_owner (fun _ => true)
      (FS.set FS.emptyFS (get_lock_path "f") ⟨"abc|sess|2024", meta0, 0⟩) "f"
      ⟨"abc|sess|2024", meta0, 0⟩ (by decide)).1 "abc" "sess" ["2024"] (by decide) (by decide),
   by decide,
   (C4_amended_nondigit_owner (fun _ => true)
      (FS.set FS.emptyFS (get_lock_path "g") ⟨"garbage", meta0, 0⟩) "g"
      ⟨"garbage", meta0, 0⟩ (by decide)).2 "garbage" (by decide)⟩

/-! ## Claim C9 -/

/-- Claim C9: `release_stale_lock` deletes the lock file exactly when a
lock file exists and its age strictly exceeds the threshold; nothing else
is ever deleted, and when no lock exists or the age is within the
threshold the filesystem is returned unchanged.  The definition takes no
liveness oracle, so the behaviour is independent of owner liveness by
construction. -/
theorem C9_release_if_stale (fs : FS) (now : Nat) (path : FPath) (max_age : Int) :
    (∀ f, fs (get_lock_path path) = some f →
      (((now : Int) - (f.ctime : Int) > max_age →
        release_stale_lock fs now path max_age (get_lock_path path) = none
        ∧ ∀ q, q ≠ get_lock_path path →
            release_stale_lock fs now path max_age q = fs q)
      ∧ (¬ ((now : Int) - (f.ctime : Int) > max_age) →
        release_stale_lock fs now path max_age = fs)))
    ∧ (fs (get_lock_path path) = none → release_stale_lock fs now path max_age = fs) := by
  constructor
  · intro f hf
    have hstale : is_stale_lock fs now path max_age
        = decide ((now : Int) - (f.ctime : Int) > max_age) := by
      unfold is_stale_lock is_locked get_lock_age
      rw [hf]
      simp
    constructor
    · intro hgt
      have ht : is_stale_lock fs now path max_age = true := by
        rw [hstale]; exact decide_eq_true hgt
      constructor
      · unfold release_stale_lock
        rw [if_pos ht]
        exact force_release_lock_lockfile fs path
      · intro q hq
        unfold release_stale_lock
        rw [if_pos ht]
        exact force_release_lock_other fs path q hq
    · intro hle
      have ht : is_stale_lock fs now path max_age = false := by
        rw [hstale]; exact decide_eq_false hle
      unfold release_stale_lock
      rw [ht]
      simp
  · intro hnone
    have ht : is_stale_lock fs now path max_age = false := by
      unfold is_stale_lock is_locked
      rw [hnone]
      rfl
    unfold release_stale_lock
    rw [ht]
    simp

/-- Witness for C9: a lock created at time 0 inspected at time 100 with
threshold 5 is deleted; the same lock with threshold 1000 is kept. -/
theorem C9_release_if_stale_witness :
    (FS.set FS.emptyFS (get_lock_path "p") ⟨"1|s|T", meta0, 0⟩) (get_lock_path "p")
        = some ⟨"1|s|T", meta0, 0⟩
    ∧ ((100 : Nat) : Int) - ((0 : Nat) : Int) > (5 : Int)
    ∧ release_stale_lock (FS.set FS.emptyFS (get_lock_path "p") ⟨"1|s|T", meta0, 0⟩)
        100 "p" 5 (get_lock_path "p") = none
    ∧ ¬ (((100 : Nat) : Int) - ((0 : Nat) : Int) > (1000 : Int))
    ∧ release_stale_lock (FS.set FS.emptyFS (get_lock_path "p") ⟨"1|s|T", meta0, 0⟩)
        100 "p" 1000
        = FS.set FS.emptyFS (get_lock_path "p") ⟨"1|s|T", meta0, 0⟩ :=
  ⟨by decide, by decide,
   (((C9_release_if_stale (FS.set FS.emptyFS (get_lock_path "p") ⟨"1|s|T", meta0, 0⟩)
       100 "p" 5).1 ⟨"1|s|T", meta0, 0⟩ (by decide)).1 (by decide)).1,
   by decide,
   ((C9_release_if_stale (FS.set FS.emptyFS (get_lock_path "p") ⟨"1|s|T", meta0, 0⟩)
       100 "p" 1000).1 ⟨"1|s|T", meta0, 0⟩ (by decide)).2 (by decide)⟩

/-! ## Claim C10 -/

/-- Claim C10: an empty session label is treated exactly like no session
label — the fingerprint helper returns absent for the empty string (not
a digest of it), acquisition with `session=""` behaves identically to
acquisition with no session, and inspecting the lock the acquisition
wrote reports the session fingerprint as absent. -/
theorem C10_empty_session_label (al : Nat → Bool) (h8 : String → String)
    (pid : Nat) (ts : String) (now : Nat) (fs : FS) (path : FPath)
    (retries : Nat) (force : Bool) :
    session_to_hash h8 (some "") = none
    ∧ session_to_hash h8 none = none
    ∧ try_acquire_lock al h8 pid ts now fs path retries (some "") force
        = try_acquire_lock al h8 pid ts now fs path retries none force
    ∧ (fs (get_lock_path path) = none → 1 ≤ retries →
      py_split (py_strip (lock_render pid none ts)) LOCK_SEP_CHAR = [toString pid, "", ts] →
      (inspect_lock al
        (try_acquire_lock al h8 pid ts now fs path retries (some "") force).fs
        path).session_hash = none) := by
  have hempty : session_to_hash h8 (some "") = none := rfl
  have hnone : session_to_hash h8 none = none := rfl
  refine ⟨hempty, rfl, ?_, ?_⟩
  · unfold try_acquire_lock
    rw [hempty, hnone]
  · intro hlock hr hsplit
    obtain ⟨n, rfl⟩ : ∃ n, retries = n + 1 := ⟨retries - 1, by omega⟩
    unfold try_acquire_lock
    rw [hempty, try_acquire_lock_loop_succ_none al path force pid none ts now n fs hlock]
    simp only [inspect_lock]
    rw [FS.set_self]
    simp only [lock_parse]
    rw [hsplit]
    simp

/-- Witness for C10: acquiring with `session=""` on an unlocked path
writes a record whose inspection reports no session fingerprint. -/
theorem C10_empty_session_label_witness :
    session_to_hash (fun s => s) (some "") = none
    ∧ FS.emptyFS (get_lock_path "t") = none
    ∧ (1 : Nat) ≤ 1
    ∧ py_split (py_strip (lock_render 1234 none "TS")) LOCK_SEP_CHAR
        = [toString 1234, "", "TS"]
    ∧ (inspect_lock (fun _ => true)
        (try_acquire_lock (fun _ => true) (fun s => s) 1234 "TS" 3 FS.emptyFS "t" 1
          (some "") false).fs
        "t").session_hash = none :=
  ⟨(C10_empty_session_label (fun _ => true) (fun s => s) 1234 "TS" 3 FS.emptyFS "t" 1 false).1,
   rfl, by decide, by decide,
   (C10_empty_session_label (fun _ => true) (fun s => s) 1234 "TS" 3 FS.emptyFS "t" 1
     false).2.2.2 rfl (by decide) (by decide)⟩

/-! ## Claim C6 -/

/-- Claim C6: the shape of every acquire-loop iteration.  (a) With no
lock file present and at least one attempt left, the loop creates the
lock, writes the record rendered from the caller's pid, the session
fingerprint and the timestamp, and returns success with no sleep
consumed.  (b) With a lock file present whose owner is not alive, or
with `force` set, the lock file is deleted and the loop retries
immediately: with one further attempt available it succeeds with zero
sleeps consumed.  (c) With a live owner and no force, each attempt
sleeps once; after the attempts are exhausted the call returns `false`
rather than raising, with the filesystem untouched. -/
theorem C6_try_acquire_iteration (al : Nat → Bool) (h8 : String → String)
    (pid : Nat) (ts : String) (now : Nat) (fs : FS) (path : FPath)
    (retries : Nat) (session : Option String) (force : Bool) :
    (fs (get_lock_path path) = none → 1 ≤ retries →
      try_acquire_lock al h8 pid ts now fs path retries session force
        = ⟨true,
           FS.set fs (get_lock_path path)
             ⟨lock_render pid (session_to_hash h8 session) ts, meta0, now⟩,
           0⟩)
    ∧ (∀ f, fs (get_lock_path path) = some f →
      ((inspect_lock al fs path).alive = false ∨ force = true) → 2 ≤ retries →
      try_acquire_lock al h8 pid ts now fs path retries session force
        = ⟨true,
           FS.set (FS.del fs (get_lock_path path)) (get_lock_path path)
             ⟨lock_render pid (session_to_hash h8 session) ts, meta0, now⟩,
           0⟩)
    ∧ ((fs (get_lock_path path)).isSome = true →
      (inspect_lock al fs path).alive = true → force = false →
      try_acquire_lock al h8 pid ts now fs path retries session force
        = ⟨false, fs, retries⟩) := by
  refine ⟨?_, ?_, ?_⟩
  · intro hnone hr
    obtain ⟨n, rfl⟩ : ∃ n, retries = n + 1 := ⟨retries - 1, by omega⟩
    unfold try_acquire_lock
    exact try_acquire_lock_loop_succ_none al path force pid _ ts now n fs hnone
  · intro f hsome hcond hr
    obtain ⟨n, rfl⟩ : ∃ n, retries = n + 2 := ⟨retries - 2, by omega⟩
    unfold try_acquire_lock
    have hc : (!(inspect_lock al fs path).alive || force) = true := by
      rcases hcond with h | h <;> simp [h]
    rw [try_acquire_lock_loop_succ_reclaim al path force pid _ ts now (n + 1) fs f hsome hc]
    have hfrl : force_release_lock fs path = FS.del fs (get_lock_path path) := by
      unfold force_release_lock
      rw [hsome]
      rfl
    rw [hfrl]
    exact try_acquire_lock_loop_succ_none al path force pid _ ts now n _
      (FS.del_self fs (get_lock_path path))
  · intro hsome halive hforce
    subst hforce
    unfold try_acquire_lock
    exact try_acquire_lock_loop_live al path pid _ ts now retries fs hsome halive

/-- Witness for C6, one concrete scenario per branch: a free lock is
created at once with no sleep; a dead owner's lock is deleted and
re-acquired with no sleep; a live owner's lock makes every attempt sleep
and the call return `false`. -/
theorem C6_try_acquire_iteration_witness :
    (FS.emptyFS (get_lock_path "t") = none
      ∧ try_acquire_lock (fun _ => true) (fun _ => "HH") 7 "TS" 3 FS.emptyFS "t" 1
          (some "s") false
        = ⟨true,
           FS.set FS.emptyFS (get_lock_path "t")
             ⟨lock_render 7 (session_to_hash (fun _ => "HH") (some "s")) "TS", meta0, 3⟩,
           0⟩)
    ∧ ((FS.set FS.emptyFS (get_lock_path "t") ⟨"9|x|T", meta0, 0⟩) (get_lock_path "t")
          = some ⟨"9|x|T", meta0, 0⟩
      ∧ (inspect_lock (fun _ => false)
          (FS.set FS.emptyFS (get_lock_path "t") ⟨"9|x|T", meta0, 0⟩) "t").alive = false
      ∧ try_acquire_lock (fun _ => false) (fun _ => "HH") 7 "TS" 3
          (FS.set FS.emptyFS (get_lock_path "t") ⟨"9|x|T", meta0, 0⟩) "t" 2 none false
        = ⟨true,
           FS.set
             (FS.del (FS.set FS.emptyFS (get_lock_path "t") ⟨"9|x|T", meta0, 0⟩)
               (get_lock_path "t"))
             (get_lock_path "t")
             ⟨lock_render 7 (session_to_hash (fun _ => "HH") none) "TS", meta0, 3⟩,
           0⟩)
    ∧ (((FS.set FS.emptyFS (get_lock_path "t") ⟨"9|x|T", meta0, 0⟩)
          (get_lock_path "t")).isSome = true
      ∧ (inspect_lock (fun p => decide (p = 9))
          (FS.set FS.emptyFS (get_lock_path "t") ⟨"9|x|T", meta0, 0⟩) "t").alive = true
      ∧ try_acquire_lock (fun p => decide (p = 9)) (fun _ => "HH") 7 "TS" 3
          (FS.set FS.emptyFS (get_lock_path "t") ⟨"9|x|T", meta0, 0⟩) "t" 3 none false
        = ⟨false, FS.set FS.emptyFS (get_lock_path "t") ⟨"9|x|T", meta0, 0⟩, 3⟩) :=
  ⟨⟨rfl,
    (C6_try_acquire_iteration (fun _ => true) (fun _ => "HH") 7 "TS" 3 FS.emptyFS "t" 1
      (some "s") false).1 rfl (by decide)⟩,
   ⟨by decide, by decide,
    (C6_try_acquire_iteration (fun _ => false) (fun _ => "HH") 7 "TS" 3
      (FS.set FS.emptyFS (get_lock_path "t") ⟨"9|x|T", meta0, 0⟩) "t" 2 none false).2.1
      ⟨"9|x|T", meta0, 0⟩ (by decide) (Or.inl (by decide)) (by decide)⟩,
   ⟨by decide, by decide,
    (C6_try_acquire_iteration (fun p => decide (p = 9)) (fun _ => "HH") 7 "TS" 3
      (FS.set FS.emptyFS (get_lock_path "t") ⟨"9|x|T", meta0, 0⟩) "t" 3 none false).2.2
      (by decide) (by decide) rfl⟩⟩

/-! ## Claim C5 -/

/-- Claim C5: a non-simulated writer session whose lock acquisition
fails raises the lock-unavailable condition and leaves nothing behind —
the target is untouched, the session's (initially absent) temp file is
still absent, and the lock file is either the pre-existing one (not
created by this session) or absent. -/
theorem C5_lock_failure_leaves_nothing (al : Nat → Bool) (h8 : String → String)
    (pid : Nat) (ts : String) (now : Nat) (fs : FS) (path tmpfile : FPath)
    (retries : Nat) (session : Option String) (force : Bool)
    (blockData : String) (blockRaises : Bool)
    (hfail : (try_acquire_lock al h8 pid ts now fs path retries session force).ok = false)
    (htmp0 : fs tmpfile = none) (htl : tmpfile ≠ get_lock_path path) :
    (AtomicWriter.run ⟨path, tmpfile, retries, false, session, force⟩
        al h8 pid ts now blockData blockRaises fs).outcome = .lockUnavailable
    ∧ (AtomicWriter.run ⟨path, tmpfile, retries, false, session, force⟩
        al h8 pid ts now blockData blockRaises fs).fs path = fs path
    ∧ (AtomicWriter.run ⟨path, tmpfile, retries, false, session, force⟩
        al h8 pid ts now blockData blockRaises fs).fs tmpfile = none
    ∧ ((AtomicWriter.run ⟨path, tmpfile, retries, false, session, force⟩
          al h8 pid ts now blockData blockRaises fs).fs (get_lock_path path)
        = fs (get_lock_path path)
      ∨ (AtomicWriter.run ⟨path, tmpfile, retries, false, session, force⟩
          al h8 pid ts now blockData blockRaises fs).fs (get_lock_path path)
        = none) := by
  have hrun : AtomicWriter.run ⟨path, tmpfile, retries, false, session, force⟩
      al h8 pid ts now blockData blockRaises fs
      = ⟨.lockUnavailable,
         (try_acquire_lock al h8 pid ts now fs path retries session force).fs⟩ := by
    unfold AtomicWriter.run
    simp only []
    rw [hfail]
    simp
  rw [hrun]
  refine ⟨rfl, ?_, ?_, ?_⟩
  · exact try_acquire_lock_loop_frame al path force pid (session_to_hash h8 session) ts now
      path (Ne.symm (get_lock_path_ne path)) retries fs
  · show (try_acquire_lock al h8 pid ts now fs path retries session force).fs tmpfile = none
    unfold try_acquire_lock
    rw [try_acquire_lock_loop_frame al path force pid (session_to_hash h8 session) ts now
      tmpfile htl retries fs]
    exact htmp0
  · exact try_acquire_lock_loop_fail al path force pid (session_to_hash h8 session) ts now
      retries fs hfail

/-- Witness for C5: against a live owner's lock with one retry, the
session raises lock-unavailable and leaves the target, the temp path and
the foreign lock file exactly as they were. -/
theorem C5_lock_failure_leaves_nothing_witness :
    (try_acquire_lock (fun p => decide (p = 1)) (fun _ => "HH") 42 "TS" 9
        (FS.set FS.emptyFS (get_lock_path "t") ⟨"1|s|T", meta0, 0⟩) "t" 1 none false).ok
      = false
    ∧ (FS.set FS.emptyFS (get_lock_path "t") ⟨"1|s|T", meta0, 0⟩) "tmpT" = none
    ∧ ("tmpT" : FPath) ≠ get_lock_path "t"
    ∧ (AtomicWriter.run ⟨"t", "tmpT", 1, false, none, false⟩
        (fun p => decide (p = 1)) (fun _ => "HH") 42 "TS" 9 "DATA" false
        (FS.set FS.emptyFS (get_lock_path "t") ⟨"1|s|T", meta0, 0⟩)).outcome
      = .lockUnavailable :=
  ⟨by decide, by decide, by decide,
   (C5_lock_failure_leaves_nothing (fun p => decide (p = 1)) (fun _ => "HH") 42 "TS" 9
     (FS.set FS.emptyFS (get_lock_path "t") ⟨"1|s|T", meta0, 0⟩) "t" "tmpT" 1 none false
     "DATA" false (by decide) (by decide) (by decide)).1⟩

/-! ## Claim C7 -/

/-- Effect of a writer session that acquires a free lock: the target ends
up holding exactly the block's data (with the prior target's metadata
when one existed), the lock and the temp file are gone, and no other
path changes. -/
theorem AtomicWriter_run_free_lock (al : Nat → Bool) (h8 : String → String)
    (pid : Nat) (ts : String) (now : Nat) (fs : FS) (path tmpfile : FPath)
    (retries : Nat) (session : Option String) (force : Bool)
    (blockData : String) (blockRaises : Bool)
    (hlock : fs (get_lock_path path) = none)
    (htp : tmpfile ≠ path) (htl : tmpfile ≠ get_lock_path path) (hr : 1 ≤ retries) :
    (AtomicWriter.run ⟨path, tmpfile, retries, false, session, force⟩
        al h8 pid ts now blockData blockRaises fs).outcome
      = (if blockRaises then .blockError else .completed)
    ∧ (AtomicWriter.run ⟨path, tmpfile, retries, false, session, force⟩
        al h8 pid ts now blockData blockRaises fs).fs path
      = some ⟨blockData, (match fs path with | some t => t.fmeta | none => meta0), now⟩
    ∧ (AtomicWriter.run ⟨path, tmpfile, retries, false, session, force⟩
        al h8 pid ts now blockData blockRaises fs).fs (get_lock_path path) = none
    ∧ (AtomicWriter.run ⟨path, tmpfile, retries, false, session, force⟩
        al h8 pid ts now blockData blockRaises fs).fs tmpfile = none := by
  obtain ⟨n, rfl⟩ : ∃ n, retries = n + 1 := ⟨retries - 1, by omega⟩
  have hpt : path ≠ tmpfile := Ne.symm htp
  have hlt : get_lock_path path ≠ tmpfile := Ne.symm htl
  have hpl : path ≠ get_lock_path path := Ne.symm (get_lock_path_ne path)
  have hlp : get_lock_path path ≠ path := get_lock_path_ne path
  have hacq : try_acquire_lock al h8 pid ts now fs path (n + 1) session force
      = ⟨true,
         FS.set fs (get_lock_path path)
           ⟨lock_render pid (session_to_hash h8 session) ts, meta0, now⟩,
         0⟩ := by
    unfold try_acquire_lock
    exact try_acquire_lock_loop_succ_none al path force pid _ ts now n fs hlock
  unfold AtomicWriter.run
  rw [hacq]
  cases hfp : fs path with
  | none =>
    refine ⟨rfl, ?_, ?_, ?_⟩ <;>
      simp [FS.set, FS.del, force_release_lock, hfp, hpt, hlt, hpl, hlp, htp, htl]
  | some t =>
    refine ⟨rfl, ?_, ?_, ?_⟩ <;>
      simp [FS.set, FS.del, force_release_lock, hfp, hpt, hlt, hpl, hlp, htp, htl]

/-- The universal-newlines translation is the identity exactly on
carriage-return-free content. -/
theorem py_universal_newlines_of_no_cr (l : List Char) (h : ¬ '\r' ∈ l) :
    py_universal_newlines l = l := by
  induction l with
  | nil => rfl
  | cons c rest ih =>
    have hc : c ≠ '\r' := fun e => h (by simp [e])
    have h2 : ¬ '\r' ∈ rest := fun hm => h (List.mem_cons_of_mem c hm)
    cases rest with
    | nil => simp [py_universal_newlines, hc]
    | cons d rest2 => simp [py_universal_newlines, hc, ih h2]

/-- Claim C7, as stated over every text content, is false: the core read
opens the target in text mode with the default `newline=None`, whose
universal-newlines translation turns `'\r'` into `'\n'`, so writing
`"a\rb"` and reading it back yields `"a\nb"`, not the original. -/
theorem C7_counterexample :
    read_atomic
        (write_atomic (fun _ => true) (fun _ => "HH") 7 "TS" 5 FS.emptyFS "f" "tf"
          "a\rb" 1 false none false).fs "f" 1 false
      = .ok "a\nb"
    ∧ ("a\nb" : String) ≠ "a\rb" :=
  ⟨rfl, by decide⟩

/-- Claim C7 (amended): writing any text content `c` to an unlocked path
with the core write operation and then reading that path with the core
read operation yields `c` with the text-mode universal-newlines
translation applied; for every `c` without a carriage return (the empty
string and non-ASCII text included) that is exactly `c`. -/
theorem C7_amended_round_trip (al : Nat → Bool) (h8 : String → String)
    (pid : Nat) (ts : String) (now : Nat) (fs : FS) (path tmpfile : FPath)
    (c : String) (retries retries2 : Nat) (session : Option String)
    (force require_lock : Bool)
    (hlock : fs (get_lock_path path) = none)
    (htp : tmpfile ≠ path) (htl : tmpfile ≠ get_lock_path path)
    (hr : 1 ≤ retries) (hr2 : 1 ≤ retries2) :
    (write_atomic al h8 pid ts now fs path tmpfile c retries false session force).outcome
      = .completed
    ∧ read_atomic
        (write_atomic al h8 pid ts now fs path tmpfile c retries false session force).fs
        path retries2 require_lock = .ok (py_read_text c)
    ∧ (¬ '\r' ∈ c.data →
      read_atomic
        (write_atomic al h8 pid ts now fs path tmpfile c retries false session force).fs
        path retries2 require_lock = .ok c) := by
  unfold write_atomic
  obtain ⟨hout, hpath, hlockf, _⟩ := AtomicWriter_run_free_lock al h8 pid ts now fs path
    tmpfile retries session force c false hlock htp htl hr
  obtain ⟨m, rfl⟩ : ∃ m, retries2 = m + 1 := ⟨retries2 - 1, by omega⟩
  have hnl : is_locked
      (AtomicWriter.run ⟨path, tmpfile, retries, false, session, force⟩
        al h8 pid ts now c false fs).fs path = false := by
    unfold is_locked
    rw [hlockf]
    rfl
  have hread : read_atomic
      (AtomicWriter.run ⟨path, tmpfile, retries, false, session, force⟩
        al h8 pid ts now c false fs).fs path (m + 1) require_lock
      = .ok (py_read_text c) := by
    rw [read_atomic, AtomicReader_run]
    rw [hnl]
    cases require_lock <;> simp only [Bool.not_false, Bool.not_true, Bool.true_or,
      Bool.or_true, Bool.false_or, if_true] <;> rw [hpath]
  refine ⟨hout, hread, ?_⟩
  intro hcr
  rw [hread]
  unfold py_read_text
  rw [py_universal_newlines_of_no_cr c.data hcr]

/-- Witness for the amended C7: a round trip of the carriage-return-free
non-ASCII content `"héllo"` through an unlocked path returns exactly
that content. -/
theorem C7_amended_round_trip_witness :
    FS.emptyFS (get_lock_path "f") = none
    ∧ ("tf" : FPath) ≠ "f"
    ∧ ("tf" : FPath) ≠ get_lock_path "f"
    ∧ (1 : Nat) ≤ 1
    ∧ ¬ '\r' ∈ ("héllo" : String).data
    ∧ (write_atomic (fun _ => true) (fun _ => "HH") 7 "TS" 5 FS.emptyFS "f" "tf" "héllo"
        1 false none false).outcome = .completed
    ∧ read_atomic
        (write_atomic (fun _ => true) (fun _ => "HH") 7 "TS" 5 FS.emptyFS "f" "tf" "héllo"
          1 false none false).fs "f" 1 true = .ok "héllo" :=
  ⟨rfl, by decide, by decide, by decide, by decide,
   (C7_amended_round_trip (fun _ => true) (fun _ => "HH") 7 "TS" 5 FS.emptyFS "f" "tf"
     "héllo" 1 1 none false true rfl (by decide) (by decide) (by decide) (by decide)).1,
   (C7_amended_round_trip (fun _ => true) (fun _ => "HH") 7 "TS" 5 FS.emptyFS "f" "tf"
     "héllo" 1 1 none false true rfl (by decide) (by decide) (by decide)
     (by decide)).2.2 (by decide)⟩

/-! ## Claim C1 -/

/-- Claim C1 records the intended no-rename-on-error behaviour, but the
code's scope exit performs the metadata-copy and rename even when the
caller's block raised: over a target holding `"OLD"`, a session whose
block wrote only the partial content `"PAR"` and then raised ends with
the exception propagating and the target replaced by `"PAR"` — the
rename did happen.  The lock is released and the temp file removed (those
parts of the claim hold), but the target is not byte-for-byte unchanged. -/
theorem C1_code_renames_on_error :
    (AtomicWriter.run ⟨"t", "tmpT", 5, false, none, false⟩ (fun _ => true) (fun _ => "HH")
        42 "TS" 9 "PAR" true (FS.set FS.emptyFS "t" ⟨"OLD", 7, 0⟩)).outcome = .blockError
    ∧ (AtomicWriter.run ⟨"t", "tmpT", 5, false, none, false⟩ (fun _ => true) (fun _ => "HH")
        42 "TS" 9 "PAR" true (FS.set FS.emptyFS "t" ⟨"OLD", 7, 0⟩)).fs "t"
        = some ⟨"PAR", 7, 9⟩
    ∧ (AtomicWriter.run ⟨"t", "tmpT", 5, false, none, false⟩ (fun _ => true) (fun _ => "HH")
        42 "TS" 9 "PAR" true (FS.set FS.emptyFS "t" ⟨"OLD", 7, 0⟩)).fs (get_lock_path "t")
        = none
    ∧ (AtomicWriter.run ⟨"t", "tmpT", 5, false, none, false⟩ (fun _ => true) (fun _ => "HH")
        42 "TS" 9 "PAR" true (FS.set FS.emptyFS "t" ⟨"OLD", 7, 0⟩)).fs "tmpT" = none := by
  decide

/-! ## Claim C2 -/

/-- Claim C2, as stated, is false: a simulated session does not exercise
lock acquire/release at all.  On a path whose lock is held by a live
owner, the simulated session succeeds and leaves the filesystem exactly
as it was, while the non-simulated session with the same arguments fails
with lock-unavailable — so simulate does not acquire the lock "exactly
as a non-simulated session would". -/
theorem C2_counterexample :
    (AtomicWriter.run ⟨"t", "tmpT", 2, true, none, false⟩ (fun p => decide (p = 1))
        (fun _ => "HH") 42 "TS" 9 "DATA" false
        (FS.set FS.emptyFS (get_lock_path "t") ⟨"1|s|TS", meta0, 0⟩)).outcome = .completed
    ∧ (AtomicWriter.run ⟨"t", "tmpT", 2, true, none, false⟩ (fun p => decide (p = 1))
        (fun _ => "HH") 42 "TS" 9 "DATA" false
        (FS.set FS.emptyFS (get_lock_path "t") ⟨"1|s|TS", meta0, 0⟩)).fs
        = FS.set FS.emptyFS (get_lock_path "t") ⟨"1|s|TS", meta0, 0⟩
    ∧ (AtomicWriter.run ⟨"t", "tmpT", 2, false, none, false⟩ (fun p => decide (p = 1))
        (fun _ => "HH") 42 "TS" 9 "DATA" false
        (FS.set FS.emptyFS (get_lock_path "t") ⟨"1|s|TS", meta0, 0⟩)).outcome
        = .lockUnavailable :=
  ⟨rfl, rfl, by decide⟩

/-- Claim C2 (amended): a simulated session discards all writes into a
no-op sink, creates no temp file, performs no rename, and does not
interact with the lock at all — entry always succeeds (even when a live
owner holds the lock) and exit releases nothing; the filesystem is
returned exactly unchanged. -/
theorem C2_simulate_touches_nothing (path tmpfile : FPath) (retries : Nat)
    (session : Option String) (force : Bool) (al : Nat → Bool) (h8 : String → String)
    (pid : Nat) (ts : String) (now : Nat) (blockData : String) (blockRaises : Bool)
    (fs : FS) :
    AtomicWriter.run ⟨path, tmpfile, retries, true, session, force⟩ al h8 pid ts now
        blockData blockRaises fs
      = ⟨if blockRaises then .blockError else .completed, fs⟩ := rfl

/-! ## Claim C3 -/

/-- Claim C3, as stated, is false: the pickle-equivalent write does not
go through the lock-acquiring write primitive.  On a path whose lock is
held by a live owner, `atomic_pickle_write` succeeds (the target receives
the pickled bytes and the foreign lock file is untouched) while the core
`write_atomic` with the same arguments fails with lock-unavailable. -/
theorem C3_counterexample :
    atomic_pickle_write (FS.set FS.emptyFS (get_lock_path "t") ⟨"1|s|TS", meta0, 0⟩)
        "t" "tmpP" "PKL" 9 "t" = some ⟨"PKL", meta0, 9⟩
    ∧ atomic_pickle_write (FS.set FS.emptyFS (get_lock_path "t") ⟨"1|s|TS", meta0, 0⟩)
        "t" "tmpP" "PKL" 9 (get_lock_path "t") = some ⟨"1|s|TS", meta0, 0⟩
    ∧ (write_atomic (fun p => decide (p = 1)) (fun _ => "HH") 42 "TS" 9
        (FS.set FS.emptyFS (get_lock_path "t") ⟨"1|s|TS", meta0, 0⟩) "t" "tmpP" "PKL"
        DEFAULT_RETRIES false none false).outcome = .lockUnavailable := by
  decide

/-- Claim C3 (amended): the JSON and YAML wrappers are pure pre/post
processing around the core `write_atomic`/`read_atomic` primitives with
their default arguments and add no locking semantics; the
pickle-equivalent wrapper, however, stages and renames directly without
the lock-acquiring write primitive — it writes the target and leaves the
lock path untouched regardless of any held lock. -/
theorem C3_amended_wrappers (α : Type) (dumps : α → String) (loads : String → α)
    (al : Nat → Bool) (h8 : String → String) (pid : Nat) (ts : String) (now : Nat)
    (fs : FS) (path tmpfile : FPath) (obj : α) (enc : String)
    (htp : tmpfile ≠ path) (htl : tmpfile ≠ get_lock_path path) :
    atomic_json_dump dumps al h8 pid ts now fs path tmpfile obj
      = write_atomic al h8 pid ts now fs path tmpfile (dumps obj) DEFAULT_RETRIES
          false none false
    ∧ atomic_yaml_dump dumps al h8 pid ts now fs path tmpfile obj
      = write_atomic al h8 pid ts now fs path tmpfile (dumps obj) DEFAULT_RETRIES
          false none false
    ∧ atomic_json_load loads fs path
      = (read_atomic fs path DEFAULT_RETRIES false).map loads
    ∧ atomic_pickle_write fs path tmpfile enc now path
      = some ⟨enc, (match fs path with | some t => t.fmeta | none => meta0), now⟩
    ∧ atomic_pickle_write fs path tmpfile enc now (get_lock_path path)
      = fs (get_lock_path path) := by
  have hpt : path ≠ tmpfile := Ne.symm htp
  have hlt : get_lock_path path ≠ tmpfile := Ne.symm htl
  have hlp : get_lock_path path ≠ path := get_lock_path_ne path
  refine ⟨rfl, rfl, rfl, ?_, ?_⟩
  · unfold atomic_pickle_write
    cases hfp : fs path with
    | none => simp [FS.set, FS.del, hfp, hpt, htp]
    | some t => simp [FS.set, FS.del, hfp, hpt, htp]
  · unfold atomic_pickle_write
    cases hfp : fs path with
    | none => simp [FS.set, FS.del, hfp, hlt, hlp, hpt, htp]
    | some t => simp [FS.set, FS.del, hfp, hlt, hlp, hpt, htp]

/-- Witness for the amended C3: on a live-owner-locked path, the pickle
write bypasses the lock and publishes its bytes while the lock file
stays. -/
theorem C3_amended_wrappers_witness :
    ("tmpP" : FPath) ≠ "t"
    ∧ ("tmpP" : FPath) ≠ get_lock_path "t"
    ∧ atomic_pickle_write (FS.set FS.emptyFS (get_lock_path "t") ⟨"1|s|TS", meta0, 0⟩)
        "t" "tmpP" "PKL" 9 "t"
      = some ⟨"PKL",
          (match (FS.set FS.emptyFS (get_lock_path "t") ⟨"1|s|TS", meta0, 0⟩) "t" with
           | some t => t.fmeta | none => meta0), 9⟩
    ∧ atomic_pickle_write (FS.set FS.emptyFS (get_lock_path "t") ⟨"1|s|TS", meta0, 0⟩)
        "t" "tmpP" "PKL" 9 (get_lock_path "t")
      = (FS.set FS.emptyFS (get_lock_path "t") ⟨"1|s|TS", meta0, 0⟩) (get_lock_path "t") :=
  ⟨by decide, by decide,
   (C3_amended_wrappers String (fun s => s) (fun s => s) (fun p => decide (p = 1))
     (fun _ => "HH") 42 "TS" 9
     (FS.set FS.emptyFS (get_lock_path "t") ⟨"1|s|TS", meta0, 0⟩) "t" "tmpP" "o" "PKL"
     (by decide) (by decide)).2.2.2.1,
   (C3_amended_wrappers String (fun s => s) (fun s => s) (fun p => decide (p = 1))
     (fun _ => "HH") 42 "TS" 9
     (FS.set FS.emptyFS (get_lock_path "t") ⟨"1|s|TS", meta0, 0⟩) "t" "tmpP" "o" "PKL"
     (by decide) (by decide)).2.2.2.2⟩

/-! ## Claim C8 -/

/-- Claim C8, as stated over every `src` and `dst`, is false at two
degenerate inputs: with `src = dst` (an existing file moved onto itself)
the forced move succeeds but "src no longer exists" fails, since the
rename of a path onto itself leaves the file in place; and with `dst`
existing but `src` missing the forced move does not succeed — the rename
raises file-not-found. -/
theorem C8_counterexample :
    (move_atomic (FS.set FS.emptyFS "p" ⟨"X", 1, 0⟩) "p" "p" true).isOk = true
    ∧ (move_atomic (FS.set FS.emptyFS "p" ⟨"X", 1, 0⟩) "p" "p" true).fileAt "p"
        = some ⟨"X", 1, 0⟩
    ∧ (move_atomic (FS.set FS.emptyFS "q" ⟨"Y", 1, 0⟩) "s0" "q" true).isOk = false := by
  decide

/-- Claim C8 (amended): for distinct `src` and `dst` that both exist,
`move(src, dst, force=false)` fails with the destination-exists condition
leaving the filesystem unchanged, and `move(src, dst, force=true)`
succeeds after best-effort copying `dst`'s metadata onto `src`: afterward
`dst` holds `src`'s prior content (under `dst`'s prior metadata), `src`
no longer exists, and no other path changes. -/
theorem C8_amended_move (fs : FS) (src dst : FPath) (s d : File)
    (hs : fs src = some s) (hd : fs dst = some d) (hne : src ≠ dst) :
    move_atomic fs src dst false = .destExists fs
    ∧ (move_atomic fs src dst true).isOk = true
    ∧ (move_atomic fs src dst true).fileAt dst = some ⟨s.content, d.fmeta, s.ctime⟩
    ∧ (move_atomic fs src dst true).fileAt src = none
    ∧ ∀ q, q ≠ src → q ≠ dst → (move_atomic fs src dst true).fileAt q = fs q := by
  have hmove : move_atomic fs src dst true
      = .ok (FS.set (FS.del (FS.set fs src ⟨s.content, d.fmeta, s.ctime⟩) src) dst
          ⟨s.content, d.fmeta, s.ctime⟩) := by
    unfold move_atomic
    rw [hd, hs]
    simp
  refine ⟨?_, ?_, ?_, ?_, ?_⟩
  · unfold move_atomic
    rw [hd]
    simp
  · rw [hmove]; rfl
  · rw [hmove]
    exact FS.set_self _ dst _
  · rw [hmove]
    simp [MoveResult.fileAt, FS.set, FS.del, hne]
  · intro q hq1 hq2
    rw [hmove]
    simp [MoveResult.fileAt, FS.set, FS.del, hq1, hq2]

/-- Witness for the amended C8: moving `"a"` (content `"A"`) onto an
existing `"b"` (content `"B"`) fails without force and, with force,
replaces `"b"` with content `"A"` under `"b"`'s old metadata while `"a"`
disappears. -/
theorem C8_amended_move_witness :
    (FS.set (FS.set FS.emptyFS "a" ⟨"A", 1, 2⟩) "b" ⟨"B", 3, 4⟩) "a" = some ⟨"A", 1, 2⟩
    ∧ (FS.set (FS.set FS.emptyFS "a" ⟨"A", 1, 2⟩) "b" ⟨"B", 3, 4⟩) "b" = some ⟨"B", 3, 4⟩
    ∧ ("a" : FPath) ≠ "b"
    ∧ move_atomic (FS.set (FS.set FS.emptyFS "a" ⟨"A", 1, 2⟩) "b" ⟨"B", 3, 4⟩) "a" "b" false
        = .destExists (FS.set (FS.set FS.emptyFS "a" ⟨"A", 1, 2⟩) "b" ⟨"B", 3, 4⟩)
    ∧ (move_atomic (FS.set (FS.set FS.emptyFS "a" ⟨"A", 1, 2⟩) "b" ⟨"B", 3, 4⟩)
        "a" "b" true).fileAt "b" = some ⟨"A", 3, 2⟩
    ∧ (move_atomic (FS.set (FS.set FS.emptyFS "a" ⟨"A", 1, 2⟩) "b" ⟨"B", 3, 4⟩)
        "a" "b" true).fileAt "a" = none :=
  ⟨by decide, by decide, by decide,
   (C8_amended_move (FS.set (FS.set FS.emptyFS "a" ⟨"A", 1, 2⟩) "b" ⟨"B", 3, 4⟩) "a" "b"
     ⟨"A", 1, 2⟩ ⟨"B", 3, 4⟩ (by decide) (by decide) (by decide)).1,
   (C8_amended_move (FS.set (FS.set FS.emptyFS "a" ⟨"A", 1, 2⟩) "b" ⟨"B", 3, 4⟩) "a" "b"
     ⟨"A", 1, 2⟩ ⟨"B", 3, 4⟩ (by decide) (by decide) (by decide)).2.2.1,
   (C8_amended_move (FS.set (FS.set FS.emptyFS "a" ⟨"A", 1, 2⟩) "b" ⟨"B", 3, 4⟩) "a" "b"
     ⟨"A", 1, 2⟩ ⟨"B", 3, 4⟩ (by decide) (by decide) (by decide)).2.2.2.1⟩

end SafeAtomic
